import Mathlib

/-
  Verification development for the tmux-nerd-icons configuration parser and
  icon-resolution engine (src/scripts/yaml_parser.py, icon_resolver.py,
  ssh_parser.py).

  Python strings are modeled as lists of characters (abbrev Str).  The Python
  str methods used by the code (strip, lower, split, startswith, find,
  splitlines) are re-implemented below on Str; they are faithful for the
  ASCII inputs the configuration format deals in (Python additionally
  lowercases and strips some non-ASCII unicode characters, which no claim
  exercises).
-/

namespace NerdIcons

abbrev Str := List Char

/-- The single-quote character (U+0027). -/
def squote : Char := Char.ofNat 39

/-- Python str.strip and str.lstrip whitespace set (ASCII part):
space, tab, newline, carriage return, vertical tab, form feed. -/
def isPySpace (c : Char) : Bool :=
  c == ' ' || c == '\t' || c == '\n' || c == '\r' ||
  c == Char.ofNat 11 || c == Char.ofNat 12

/-- Python str.strip applied to both ends. -/
def pyStrip (s : Str) : Str :=
  ((s.dropWhile isPySpace).reverse.dropWhile isPySpace).reverse

/-- Python str.lower, ASCII range (A-Z to a-z). -/
def pyLower (s : Str) : Str := s.map Char.toLower

/-- Does s start with p (Python str.startswith)? -/
def pyStartsWith : Str → Str → Bool
  | _, [] => true
  | [], _ :: _ => false
  | c :: s, p :: ps => c == p && pyStartsWith s ps

/-- Split at the first occurrence of sep, sep removed: s.split(sep, 1).
When sep does not occur the second component is empty (callers guard with
a containment check first, as the Python code does). -/
def splitAtFirst : Str → Char → Str × Str
  | [], _ => ([], [])
  | c :: rest, sep =>
    if c == sep then ([], rest)
    else
      let p := splitAtFirst rest sep
      (c :: p.1, p.2)

/-- _get_indent_level: len(line) - len(line.lstrip()). -/
def indentLevel (s : Str) : Nat :=
  s.length - (s.dropWhile isPySpace).length

/-- Maximal runs of characters satisfying p; models Python
re.split on the complementary class followed by discarding empty pieces,
and also str.split() when p is non-whitespace. -/
def splitRunsGo (p : Char → Bool) (cur : Str) : Str → List Str
  | [] => if cur == [] then [] else [cur.reverse]
  | c :: rest =>
    if p c then splitRunsGo p (c :: cur) rest
    else if cur == [] then splitRunsGo p [] rest
    else cur.reverse :: splitRunsGo p [] rest

def splitRuns (p : Char → Bool) (s : Str) : List Str := splitRunsGo p [] s

/-- Python str.splitlines for the line terminators the config format uses
(newline, carriage return, CRLF). -/
def splitlinesGo (cur : Str) : Str → List Str
  | [] => [cur.reverse]
  | '\r' :: '\n' :: rest =>
    cur.reverse :: (if rest.isEmpty then [] else splitlinesGo [] rest)
  | '\n' :: rest =>
    cur.reverse :: (if rest.isEmpty then [] else splitlinesGo [] rest)
  | '\r' :: rest =>
    cur.reverse :: (if rest.isEmpty then [] else splitlinesGo [] rest)
  | c :: rest => splitlinesGo (c :: cur) rest

def splitlines : Str → List Str
  | [] => []
  | s => splitlinesGo [] s

/-- Association list with Python-dict semantics: assignment to an existing
key updates the value in place (insertion position preserved), otherwise
appends.  Models d[k] = v. -/
def dictInsert (d : List (Str × α)) (k : Str) (v : α) : List (Str × α) :=
  if d.any (fun e => e.1 == k) then
    d.map (fun e => if e.1 == k then (k, v) else e)
  else d ++ [(k, v)]

/-- First value bound to k (Python d.get(k) / k in d). -/
def dictGet (d : List (Str × α)) (k : Str) : Option α :=
  (d.find? (fun e => e.1 == k)).map (fun e => e.2)

/-! ## ssh_parser.py -/

/-- _SSH_COMMANDS: command basenames recognized as remote-login programs. -/
def sshCommands : List Str :=
  ["ssh", "slogin", "mosh", "mosh-client"].map String.toList

/-- _SSH_OPTIONS_WITH_ARG: options that consume the following argument. -/
def sshOptionsWithArg : List Str :=
  ["-b", "-c", "-D", "-E", "-F", "-I", "-i", "-J", "-L", "-l",
   "-m", "-O", "-o", "-p", "-Q", "-R", "-S", "-W", "-w", "-B"].map String.toList

/-- os.path.basename: the part of the path after the last slash. -/
def basename (s : Str) : Str :=
  (s.reverse.takeWhile (fun c => c != '/')).reverse

/-- Python str.split() with no argument: maximal runs of non-whitespace. -/
def pySplitWs (s : Str) : List Str :=
  splitRuns (fun c => !isPySpace c) s

/-- _take_first_non_option: scan arguments for the first positional one.
The separate check in the source for a value glued to a recognized option letter
advances the index by one exactly like the plain-flag branch, so both appear
here folded into the same alternative. -/
def takeFirstNonOption : List Str → Option Str
  | [] => none
  | arg :: rest =>
    if arg == "--".toList then rest.head?
    else if pyStartsWith arg ['-'] then
      if sshOptionsWithArg.contains arg then
        -- option consumes itself and its value
        match rest with
        | [] => none
        | _ :: rest2 => takeFirstNonOption rest2
      else
        -- combined option+value (e.g. -p2222) or no-argument flag: skip one
        takeFirstNonOption rest
    else some arg

/-- _normalize_hostname: strip user@ prefix, bracketed IPv6, trailing port;
lowercase the result. -/
def normalizeHostname (host : Str) : Str :=
  let h1 := if host.contains '@' then (splitAtFirst host '@').2 else host
  let h2 := pyStrip h1
  let h3 :=
    match h2 with
    | '[' :: rest =>
      -- host.find("]") > 0 iff a closing bracket exists after the opening one
      if rest.contains ']' then rest.takeWhile (fun c => c != ']') else rest
    | _ => if h2.contains ':' then (splitAtFirst h2 ':').1 else h2
  pyLower h3

/-- parse_ssh_host on a string command line: recognize the program by
basename, find the first positional argument, normalize it. -/
def parseSshHost (cmdline : Str) : Option Str :=
  let argv := pySplitWs cmdline
  match argv with
  | [] => none
  | prog :: rest =>
    if !sshCommands.contains (basename prog) then none
    else
      match takeFirstNonOption rest with
      | none => none
      | some h => if h == [] then none else some (normalizeHostname h)

/-! ## yaml_parser.py -/

/-- MAX_CONFIG_SIZE = 1024 * 1024. -/
def MAX_CONFIG_SIZE : Nat := 1024 * 1024

/-- MAX_REGEX_LENGTH = 500. -/
def MAX_REGEX_LENGTH : Nat := 500

/-- A parsed YAML value: an inline scalar or a nested mapping.  In the
Python source this is the dynamically-typed value "str or dict". -/
inductive YamlValue where
  | str : Str → YamlValue
  | map : List (Str × YamlValue) → YamlValue

/-- _strip_yaml_value: strip, drop an inline space-hash comment, then one
layer of matching surrounding quotes. -/
def splitAtHashComment : Str → Str × Option Str
  | [] => ([], none)
  | ' ' :: '#' :: rest => ([], some rest)
  | c :: rest =>
    let p := splitAtHashComment rest
    (c :: p.1, p.2)

/-- Strip one layer of matching surrounding single or double quotes
(only when the string has length at least two). -/
def stripSurroundingQuotes : Str → Str
  | [] => []
  | c :: rest =>
    if (c == '"' || c == squote) && !rest.isEmpty && rest.getLast? == some c
    then rest.dropLast
    else c :: rest

def stripYamlValue (val : Str) : Str :=
  let v1 := pyStrip val
  let v2 :=
    match splitAtHashComment v1 with
    | (before, some _) => pyStrip before
    | (_, none) => v1
  stripSurroundingQuotes v2

/-- _normalize_yaml_key: strip whitespace and quotes, optionally lowercase. -/
def normalizeYamlKey (raw : Str) (lowercase : Bool) : Str :=
  let key := stripSurroundingQuotes (pyStrip raw)
  if lowercase then pyLower key else key

/-- _parse_bool: true/yes/1/on are true, everything else false. -/
def parseBool (val : Str) : Bool :=
  let v := pyStrip (pyLower val)
  if v == "true".toList || v == "yes".toList || v == "1".toList || v == "on".toList then
    true
  else false

/-- _is_inline_yaml_value: empty and block/flow indicators are nested;
a hash is a comment only when alone or followed by a space. -/
def isInlineYamlValue : Str → Bool
  | [] => false
  | c :: rest =>
    if c == '|' || c == '>' || c == Char.ofNat 123 || c == '[' then false
    else !(c == '#' && (rest.isEmpty || rest.head? == some ' '))

/-- _validate_pattern_length: the ReDoS guard of the parser, never invoked;
the error carries the offending line number. -/
def validatePatternLength (pat : Str) (lineNumber : Nat) : Except Nat Unit :=
  if pat.length > MAX_REGEX_LENGTH then Except.error lineNumber else Except.ok ()

/-- One yielded item of _iter_yaml_block:
(key, inline value or none, line index, indent level). -/
abbrev BlockItem := Str × Option Str × Nat × Nat

/-- The in-block scanning phase of _iter_yaml_block (after the block label
line was found).  blockIndent is established by the first content line;
a dedent below it ends the iteration. -/
def scanBlockItems : List (Nat × Str) → Option Nat → List BlockItem
  | [], _ => []
  | (idx, raw) :: rest, blockIndent =>
    let stripped := pyStrip raw
    if stripped.isEmpty || pyStartsWith stripped ['#'] then
      scanBlockItems rest blockIndent
    else
      let ci := indentLevel raw
      let bi := blockIndent.getD ci
      if ci < bi then []
      else if ci != bi then scanBlockItems rest (some bi)
      else if !stripped.contains ':' then scanBlockItems rest (some bi)
      else
        let kv := splitAtFirst stripped ':'
        let key := normalizeYamlKey kv.1 false
        let restv := pyStrip kv.2
        if key.isEmpty then scanBlockItems rest (some bi)
        else if isInlineYamlValue restv then
          (key, some (stripYamlValue restv), idx, ci) :: scanBlockItems rest (some bi)
        else
          (key, none, idx, ci) :: scanBlockItems rest (some bi)

/-- The block-seeking phase of _iter_yaml_block: scan for the first line
whose stripped form is the label followed by a colon (optionally with
trailing content), then hand over to the in-block scan. -/
def seekBlock (label : Str) : List (Nat × Str) → List BlockItem
  | [] => []
  | (_, raw) :: rest =>
    let stripped := pyStrip raw
    let target := label ++ [':']
    if stripped == target || pyStartsWith stripped (target ++ [' ']) then
      scanBlockItems rest none
    else seekBlock label rest

/-- _iter_yaml_block. -/
def iterYamlBlock (lines : List Str) (label : Str) : List BlockItem :=
  seekBlock label lines.enum

/-- The while loop of _parse_nested_block, made total with a fuel argument.
Every recursive call (skip, inline entry, descend into a deeper block,
resume after one) strictly increases the line index, so a fuel of
lines.length + 1 can never run out; the fuel-zero branch is unreachable
for the wrapper below. -/
def parseNestedGo (lines : List Str) :
    Nat → Nat → Option Nat → List (Str × YamlValue) → Nat →
    List (Str × YamlValue) × Nat
  | 0, _, _, acc, idx => (acc, idx)
  | fuel + 1, baseIndent, blockIndent, acc, idx =>
    match lines.drop idx with
    | [] => (acc, idx)
    | raw :: _ =>
      let stripped := pyStrip raw
      if stripped.isEmpty || pyStartsWith stripped ['#'] then
        parseNestedGo lines fuel baseIndent blockIndent acc (idx + 1)
      else
        let ci := indentLevel raw
        if ci ≤ baseIndent then (acc, idx)
        else
          let bi := blockIndent.getD ci
          if ci > bi then parseNestedGo lines fuel baseIndent (some bi) acc (idx + 1)
          else if !stripped.contains ':' then
            parseNestedGo lines fuel baseIndent (some bi) acc (idx + 1)
          else
            let kv := splitAtFirst stripped ':'
            let key := normalizeYamlKey kv.1 false
            let restv := pyStrip kv.2
            if key.isEmpty then parseNestedGo lines fuel baseIndent (some bi) acc (idx + 1)
            else if isInlineYamlValue restv then
              parseNestedGo lines fuel baseIndent (some bi)
                (dictInsert acc key (.str (stripYamlValue restv))) (idx + 1)
            else
              let inner := parseNestedGo lines fuel ci none [] (idx + 1)
              let acc' :=
                if inner.1.isEmpty then acc else dictInsert acc key (.map inner.1)
              parseNestedGo lines fuel baseIndent (some bi) acc' inner.2

/-- _parse_nested_block: parse from startIdx with the parent indent;
returns the mapping and the index of the first line after the block. -/
def parseNestedBlock (lines : List Str) (startIdx baseIndent : Nat) :
    List (Str × YamlValue) × Nat :=
  parseNestedGo lines (lines.length + 1) baseIndent none [] startIdx

/-- IconConfig with its field defaults. -/
structure IconConfig where
  fallback_icon : Str
  show_name : Bool
  use_process_name : Bool
  prefer_host_icon : Bool
  ring_color_active : Str
  ring_color_inactive : Str
  icon_color : Str
  alert_color : Str
  multi_pane_icon : Str
  layout_glyphs : List (Str × Str)

def defaultIconConfig : IconConfig where
  fallback_icon := [Char.ofNat 0xf0d59]
  show_name := false
  use_process_name := false
  prefer_host_icon := true
  ring_color_active := "#875fff".toList
  ring_color_inactive := "#45475a".toList
  icon_color := "#cdd6f4".toList
  alert_color := "#f38ba8".toList
  multi_pane_icon := []
  layout_glyphs := []

/-- The loop body of _parse_config_section: dispatch one entry onto the
settings record.  String-valued settings additionally require a non-empty
value; boolean settings are always assigned through _parse_bool. -/
def applyConfigEntry (cfg : IconConfig) (key : Str) (value : Option Str) : IconConfig :=
  match value with
  | none => cfg
  | some v =>
    let nk := (pyLower key).map (fun c => if c == '-' then '_' else c)
    if nk == "fallback_icon".toList && !v.isEmpty then
      { cfg with fallback_icon := v }
    else if nk == "show_name".toList then
      { cfg with show_name := parseBool v }
    else if nk == "use_process_name".toList then
      { cfg with use_process_name := parseBool v }
    else if nk == "prefer_host_icon".toList then
      { cfg with prefer_host_icon := parseBool v }
    else if (nk == "ring_color_active".toList || nk == "index_color_active".toList)
        && !v.isEmpty then
      { cfg with ring_color_active := v }
    else if (nk == "ring_color_inactive".toList || nk == "index_color_inactive".toList)
        && !v.isEmpty then
      { cfg with ring_color_inactive := v }
    else if nk == "icon_color".toList && !v.isEmpty then
      { cfg with icon_color := v }
    else if nk == "alert_color".toList && !v.isEmpty then
      { cfg with alert_color := v }
    else if nk == "multi_pane_icon".toList && !v.isEmpty then
      { cfg with multi_pane_icon := v }
    else cfg

/-- _parse_config_section. -/
def parseConfigSection (lines : List Str) : IconConfig :=
  (iterYamlBlock lines "config".toList).foldl
    (fun cfg item => applyConfigEntry cfg item.1 item.2.1)
    defaultIconConfig

/-- _parse_nested_section (icons, hosts). -/
def parseNestedSection (lines : List Str) (sect : Str) : List (Str × YamlValue) :=
  (iterYamlBlock lines sect).foldl
    (fun acc item =>
      match item with
      | (key, some v, _, _) => dictInsert acc key (.str v)
      | (key, none, lineIdx, indent) =>
        let nested := (parseNestedBlock lines (lineIdx + 1) indent).1
        if nested.isEmpty then acc else dictInsert acc key (.map nested))
    []

/-- _parse_simple_section (title_icons, sessions). -/
def parseSimpleSection (lines : List Str) (sect : Str) : List (Str × Str) :=
  (iterYamlBlock lines sect).foldl
    (fun acc item =>
      match item with
      | (key, some v, _, _) => dictInsert acc key v
      | (_, none, _, _) => acc)
    []

/-- _parse_layout_glyphs: both spellings of the section, merged in order. -/
def parseLayoutGlyphs (lines : List Str) : List (Str × Str) :=
  (iterYamlBlock lines "layout-glyps".toList ++ iterYamlBlock lines "layout-glyphs".toList).foldl
    (fun acc item =>
      match item with
      | (key, some v, _, _) => dictInsert acc key v
      | (_, none, _, _) => acc)
    []

/-- ParsedConfig: the aggregate parse result. -/
structure ParsedConfig where
  config : IconConfig
  icons : List (Str × YamlValue)
  title_icons : List (Str × Str)
  sessions : List (Str × Str)
  hosts : List (Str × YamlValue)

/-- load_config_from_string. -/
def loadConfigFromString (content : Str) : ParsedConfig :=
  let lines := splitlines content
  let cfg := parseConfigSection lines
  let icons := parseNestedSection lines "icons".toList
  let title_icons := parseSimpleSection lines "title_icons".toList
  let sessions := parseSimpleSection lines "sessions".toList
  let hosts := parseNestedSection lines "hosts".toList
  let layout_glyphs := parseLayoutGlyphs lines
  { config := { cfg with layout_glyphs := layout_glyphs }
    icons := icons
    title_icons := title_icons
    sessions := sessions
    hosts := hosts }

/-- The failure modes of load_config: FileNotFoundError when the size stat
fails, ValueError (too large) when the size exceeds the ceiling. -/
inductive LoadError where
  | notFound : LoadError
  | tooLarge : LoadError
deriving DecidableEq

/-- load_config, with the file system abstracted: statSize is the result of
os.path.getsize (none models an OSError), content is what reading the file
would return.  The size check precedes any parsing; os.path.expanduser is
an operating-system path operation outside the core, so paths are taken
already expanded. -/
def loadConfig (statSize : Option Nat) (content : Str) : Except LoadError ParsedConfig :=
  match statSize with
  | none => Except.error LoadError.notFound
  | some size =>
    if size > MAX_CONFIG_SIZE then Except.error LoadError.tooLarge
    else Except.ok (loadConfigFromString content)

/-! ## fnmatch (Python standard library shell-style glob, as used by
_match_host).  The translate/match pipeline is modeled directly as a
matcher on character lists: star matches any run, question mark one
character, a bracket expression one character from a set (with ranges and
leading-bang negation); an unclosed bracket is a literal.  Matching is
anchored at both ends, as fnmatch re.match with a trailing end anchor is. -/

/-- Scan for the closing bracket, returning the content before it and the
remainder after it. -/
def scanClose : Str → Option (Str × Str)
  | [] => none
  | ']' :: rest => some ([], rest)
  | c :: rest => (scanClose rest).map (fun p => (c :: p.1, p.2))

/-- After an optional leading bang, a closing bracket in first position is
literal content; then scan for the real closing bracket. -/
def parseBracketBody : Str → Option (Str × Str)
  | ']' :: rest => (scanClose rest).map (fun p => (']' :: p.1, p.2))
  | cs => scanClose cs

/-- Parse a bracket expression (after the opening bracket): negation flag,
raw content, remainder of the pattern; none when there is no closing
bracket (the opening bracket is then a literal). -/
def parseBracket (cs : Str) : Option (Bool × Str × Str) :=
  match cs with
  | '!' :: rest => (parseBracketBody rest).map (fun p => (true, p.1, p.2))
  | _ => (parseBracketBody cs).map (fun p => (false, p.1, p.2))

/-- Membership of a character in bracket content, with ranges; a dash that
is first or last is literal.  (A reversed range matches nothing here; in
Python it raises a regex error, a crash path no claim exercises.) -/
def inBracketSet : Str → Char → Bool
  | a :: '-' :: b :: rest, c =>
    (decide (a.val ≤ c.val) && decide (c.val ≤ b.val)) || inBracketSet rest c
  | a :: rest, c => a == c || inBracketSet rest c
  | [], _ => false

/-- The glob matcher, made total with a fuel argument: every recursive call
strictly decreases the combined length of pattern and subject, so the
wrapper below never exhausts its fuel. -/
def globMatchFuel : Nat → Str → Str → Bool
  | 0, _, _ => false
  | fuel + 1, pat, s =>
    match pat, s with
    | [], rest => rest.isEmpty
    | '*' :: ps, [] => globMatchFuel fuel ps []
    | '*' :: ps, c :: s' =>
      globMatchFuel fuel ps (c :: s') || globMatchFuel fuel ('*' :: ps) s'
    | '?' :: _, [] => false
    | '?' :: ps, _ :: s' => globMatchFuel fuel ps s'
    | '[' :: ps, t =>
      match parseBracket ps with
      | some (neg, items, rest) =>
        match t with
        | [] => false
        | c :: s' => (inBracketSet items c != neg) && globMatchFuel fuel rest s'
      | none =>
        match t with
        | '[' :: s' => globMatchFuel fuel ps s'
        | _ => false
    | p :: ps, [] => (p == '*') && globMatchFuel fuel ps []
    | p :: ps, c :: s' => p == c && globMatchFuel fuel ps s'

/-- fnmatch(name, pat) with both sides already lowercased by the caller. -/
def globMatch (pat s : Str) : Bool :=
  globMatchFuel (pat.length + s.length + 1) pat s

/-! ## icon_resolver.py -/

/-- _MAX_PATTERN_LENGTH = 500 (the constant repeated in the resolver). -/
def MAX_PATTERN_LENGTH : Nat := 500

/-- IconResult: icon, optional color overrides, and the source tier tag. -/
structure IconResult where
  icon : Str
  ring_color : Option Str
  icon_color : Option Str
  alert_color : Option Str
  source : Str

/-- Python repr of a quoted string (quote escaping omitted; only reachable
through str() of a nested mapping, which no claim exercises). -/
def pyReprStr (s : Str) : Str := squote :: s ++ [squote]

/-- Comma-space joining of rendered dict entries. -/
def joinEntries : List Str → Str
  | [] => []
  | [e] => e
  | e :: rest => e ++ ',' :: ' ' :: joinEntries rest

/-- Python str()/repr() of a parsed value: a string passes through
unchanged, a mapping is rendered like a Python dict literal. -/
def pyStrOfYaml : YamlValue → Str
  | .str s => s
  | .map m =>
    Char.ofNat 123 ::
      (joinEntries (m.attach.map
        (fun e => pyReprStr e.1.1 ++ ':' :: ' ' :: pyStrOfYaml e.1.2))) ++
      [Char.ofNat 125]
decreasing_by
  obtain ⟨⟨a, b⟩, hm⟩ := e
  have h := List.sizeOf_lt_of_mem hm
  simp only [Prod.mk.sizeOf_spec, YamlValue.map.sizeOf_spec] at h ⊢
  omega

/-- Python x.get(k): a string value, or none for absent (a nested mapping
under a color key is passed through by Python as a raw dict object; the
claims under verification only involve string-valued colors, and that case
is mapped to none here). -/
def yamlGetStr? (v : Option YamlValue) : Option Str :=
  match v with
  | some (.str s) => some s
  | _ => none

/-- Python x or y over optional strings: None and the empty string are
falsy. -/
def pyOrOpt (a b : Option Str) : Option Str :=
  match a with
  | some s => if s.isEmpty then b else some s
  | none => b

/-- Python value.get("icon", default) rendered as a string. -/
def yamlIconOrDefault (m : List (Str × YamlValue)) (d : Str) : Str :=
  match dictGet m "icon".toList with
  | some v => pyStrOfYaml v
  | none => d

/-- _extract_host_result. -/
def extractHostResult (v : YamlValue) (cfg : IconConfig) : IconResult :=
  match v with
  | .str s =>
    { icon := s, ring_color := none, icon_color := none, alert_color := none,
      source := "host".toList }
  | .map m =>
    { icon := yamlIconOrDefault m cfg.fallback_icon
      ring_color := pyOrOpt (yamlGetStr? (dictGet m "ring-color".toList))
        (yamlGetStr? (dictGet m "index-color".toList))
      icon_color := yamlGetStr? (dictGet m "icon-color".toList)
      alert_color := yamlGetStr? (dictGet m "alert-color".toList)
      source := "host".toList }

/-- The loop of _match_host over the hosts mapping (hostname already
lowercased): per entry, exact case-insensitive match first, then glob. -/
def matchHostGo (hostLower : Str) (cfg : IconConfig) :
    List (Str × YamlValue) → Option IconResult
  | [] => none
  | (pat, v) :: rest =>
    let patLower := pyLower pat
    if patLower == hostLower then some (extractHostResult v cfg)
    else if globMatch patLower hostLower then some (extractHostResult v cfg)
    else matchHostGo hostLower cfg rest

/-- _match_host. -/
def matchHost (host : Str) (hosts : List (Str × YamlValue)) (cfg : IconConfig) :
    Option IconResult :=
  matchHostGo (pyLower host) cfg hosts

/-- The inner loop of _match_title_patterns over one title sub-mapping:
skip over-long and non-compiling patterns, return on the first
case-insensitive search hit.  The regex engine is the Python standard
library, abstracted as an oracle: re pat title = none models a pattern
that fails to compile, some b the search outcome. -/
def patLoop (re : Str → Str → Option Bool) (title : Str) (iconColor : Option Str) :
    List (Str × YamlValue) → Option IconResult
  | [] => none
  | (pat, icon) :: rest =>
    if pat.length > MAX_PATTERN_LENGTH then patLoop re title iconColor rest
    else
      match re pat title with
      | none => patLoop re title iconColor rest
      | some false => patLoop re title iconColor rest
      | some true =>
        some { icon := pyStrOfYaml icon, ring_color := none,
               icon_color := iconColor, alert_color := none,
               source := "title_pattern".toList }

/-- The outer loop of _match_title_patterns over the icons mapping. -/
def matchTitlePatternsGo (re : Str → Str → Option Bool) (title : Str)
    (cfg : IconConfig) : List (Str × YamlValue) → Option IconResult
  | [] => none
  | (_, .str _) :: rest => matchTitlePatternsGo re title cfg rest
  | (_, .map m) :: rest =>
    match dictGet m "title".toList with
    | some (.map tp) =>
      if tp.isEmpty then matchTitlePatternsGo re title cfg rest
      else
        match patLoop re title (yamlGetStr? (dictGet m "icon-color".toList)) tp with
        | some r => some r
        | none => matchTitlePatternsGo re title cfg rest
    | _ => matchTitlePatternsGo re title cfg rest

/-- _match_title_patterns. -/
def matchTitlePatterns (re : Str → Str → Option Bool) (title : Str)
    (icons : List (Str × YamlValue)) (cfg : IconConfig) : Option IconResult :=
  if title.isEmpty then none else matchTitlePatternsGo re title cfg icons

/-- Characters kept by the title tokenizer (the regex class
A-Z a-z 0-9 dot underscore plus dash). -/
def allowedTitleTokenChar (c : Char) : Bool :=
  (decide ('A'.val ≤ c.val) && decide (c.val ≤ 'Z'.val)) ||
  (decide ('a'.val ≤ c.val) && decide (c.val ≤ 'z'.val)) ||
  (decide ('0'.val ≤ c.val) && decide (c.val ≤ '9'.val)) ||
  c == '.' || c == '_' || c == '+' || c == '-'

/-- Python needle in hay (substring containment). -/
def isSubstringOf (needle : Str) : Str → Bool
  | [] => needle.isEmpty
  | c :: rest => pyStartsWith (c :: rest) needle || isSubstringOf needle rest

/-- First tokenized-title exact key hit of _match_title_icons. -/
def titleTokenLoop (ti : List (Str × Str)) : List Str → Option IconResult
  | [] => none
  | t :: rest =>
    match dictGet ti t with
    | some icon =>
      some { icon := icon, ring_color := none, icon_color := none,
             alert_color := none, source := "title_icon".toList }
    | none => titleTokenLoop ti rest

/-- Substring fallback scan of _match_title_icons. -/
def titleSubstrLoop (titleLower : Str) : List (Str × Str) → Option IconResult
  | [] => none
  | (kw, icon) :: rest =>
    if isSubstringOf (pyLower kw) titleLower then
      some { icon := icon, ring_color := none, icon_color := none,
             alert_color := none, source := "title_icon".toList }
    else titleSubstrLoop titleLower rest

/-- _match_title_icons. -/
def matchTitleIcons (title : Str) (title_icons : List (Str × Str)) :
    Option IconResult :=
  if title.isEmpty || title_icons.isEmpty then none
  else
    let titleLower := pyLower title
    let tokens := splitRuns allowedTitleTokenChar titleLower
    match titleTokenLoop title_icons tokens with
    | some r => some r
    | none => titleSubstrLoop titleLower title_icons

/-- The scan of _match_process over the icons mapping (keys preserve source
case, so every key is lowercased for comparison). -/
def matchProcessGo (processLower : Str) (cfg : IconConfig) :
    List (Str × YamlValue) → Option IconResult
  | [] => none
  | (key, v) :: rest =>
    if pyLower key != processLower then matchProcessGo processLower cfg rest
    else
      match v with
      | .str s =>
        some { icon := s, ring_color := none, icon_color := none,
               alert_color := none, source := "process".toList }
      | .map m =>
        some { icon := yamlIconOrDefault m cfg.fallback_icon
               ring_color := none
               icon_color := yamlGetStr? (dictGet m "icon-color".toList)
               alert_color := none
               source := "process".toList }

/-- _match_process. -/
def matchProcess (process : Str) (icons : List (Str × YamlValue))
    (cfg : IconConfig) : Option IconResult :=
  if process.isEmpty then none else matchProcessGo (pyLower process) cfg icons

/-- Characters kept by the session tokenizer (alphanumerics only). -/
def isAsciiAlphanumChar (c : Char) : Bool :=
  (decide ('A'.val ≤ c.val) && decide (c.val ≤ 'Z'.val)) ||
  (decide ('a'.val ≤ c.val) && decide (c.val ≤ 'z'.val)) ||
  (decide ('0'.val ≤ c.val) && decide (c.val ≤ '9'.val))

/-- Secondary case-insensitive key scan of _match_session. -/
def sessionInnerScan (t : Str) : List (Str × Str) → Option Str
  | [] => none
  | (key, icon) :: rest =>
    if pyLower key == t then some icon else sessionInnerScan t rest

/-- Token loop of _match_session: exact lookup, then the explicit
case-insensitive scan, per token. -/
def sessionTokenLoop (sessions : List (Str × Str)) : List Str → Option IconResult
  | [] => none
  | t :: rest =>
    match dictGet sessions t with
    | some icon =>
      some { icon := icon, ring_color := none, icon_color := none,
             alert_color := none, source := "session".toList }
    | none =>
      match sessionInnerScan t sessions with
      | some icon =>
        some { icon := icon, ring_color := none, icon_color := none,
               alert_color := none, source := "session".toList }
      | none => sessionTokenLoop sessions rest

/-- _match_session. -/
def matchSession (session : Str) (sessions : List (Str × Str)) :
    Option IconResult :=
  if session.isEmpty || sessions.isEmpty then none
  else sessionTokenLoop sessions (splitRuns isAsciiAlphanumChar (pyLower session))

/-- Tier 1 of resolve_icon: SSH host detection from the effective command
line (an empty or absent command line yields no host) gated by
prefer_host_icon; an empty extracted hostname is falsy in Python and also
skips the tier. -/
def hostTier (config : ParsedConfig) (cmdline : Option Str) : Option IconResult :=
  let sshHost : Option Str :=
    match cmdline with
    | some cl => if cl.isEmpty then none else parseSshHost cl
    | none => none
  match sshHost with
  | some h =>
    if config.config.prefer_host_icon && !h.isEmpty then
      matchHost h config.hosts config.config
    else none
  | none => none

/-- resolve_icon: the six-tier priority chain.  The configuration is the
already-loaded ParsedConfig (get_config caching is modeled separately);
cmdline is the effective command line (the pane-pid path goes through the
external /proc collaborator and arrives here as the joined argument
vector, or none). -/
def resolveIcon (re : Str → Str → Option Bool) (config : ParsedConfig)
    (process title session : Str) (cmdline : Option Str) : IconResult :=
  match hostTier config cmdline with
  | some r => r
  | none =>
    match matchTitlePatterns re title config.icons config.config with
    | some r => r
    | none =>
      match matchTitleIcons title config.title_icons with
      | some r => r
      | none =>
        match matchProcess process config.icons config.config with
        | some r => r
        | none =>
          match matchSession session config.sessions with
          | some r => r
          | none =>
            { icon := config.config.fallback_icon, ring_color := none,
              icon_color := none, alert_color := none,
              source := "fallback".toList }

/-! ## get_config caching (module-level cache state of icon_resolver.py) -/

/-- The module-level cache: _config_cache, _config_mtime, _config_path_cache
(mtime modeled as a rational, standing for the Python float). -/
structure ConfigCache where
  cache : Option ParsedConfig
  mtime : ℚ
  pathCache : Str

/-- The invalidation condition of get_config: empty cache, changed path, or
an observed modification time strictly greater than the cached one.  A
failed stat yields an observed time of 0.0 (and therefore does not by
itself invalidate a warm cache). -/
def cacheInvalid (st : ConfigCache) (path : Str) (statMtime : Option ℚ) : Bool :=
  st.cache.isNone || path != st.pathCache || decide (statMtime.getD 0 > st.mtime)

/-- get_config as an explicit state transition.  statMtime is the result of
os.path.getmtime (none models an OSError); loaded is what load_config
would return for the (already expanded) path.  Result: the configuration
handed to the caller and the new cache state. -/
def getConfig (st : ConfigCache) (path : Str) (statMtime : Option ℚ)
    (loaded : ParsedConfig) : ParsedConfig × ConfigCache :=
  let currentMtime := statMtime.getD 0
  match st.cache with
  | none =>
    (loaded, { cache := some loaded, mtime := currentMtime, pathCache := path })
  | some c =>
    if path != st.pathCache || decide (currentMtime > st.mtime) then
      (loaded, { cache := some loaded, mtime := currentMtime, pathCache := path })
    else (c, st)

/-- The per-entry match condition of the host tier: case-insensitive exact
key match or shell-style glob match. -/
def hostKeyMatches (host key : Str) : Bool :=
  pyLower key == pyLower host || globMatch (pyLower key) (pyLower host)

/-- A title regex pattern of 501 characters. -/
def longTitlePattern : Str := List.replicate 501 'a'

/-- A configuration whose icons section carries a title sub-block with a
501-character regex pattern. -/
def longPatternConfigText : Str :=
  "icons:\n  app:\n    title:\n      ".toList ++ longTitlePattern ++ ": X".toList

/-- A minimal parsed configuration (defaults, no mappings). -/
def cfgSampleA : ParsedConfig :=
  { config := defaultIconConfig, icons := [], title_icons := [],
    sessions := [], hosts := [] }

/-- A second parsed configuration, differing from the first in show_name. -/
def cfgSampleB : ParsedConfig :=
  { config := { defaultIconConfig with show_name := true }, icons := [],
    title_icons := [], sessions := [], hosts := [] }

/-! ## Helper lemmas: every tier matcher tags its result with its own
source string. -/

theorem extractHostResult_source (v : YamlValue) (cfg : IconConfig) :
    (extractHostResult v cfg).source = "host".toList := by
  cases v <;> rfl

theorem matchHostGo_source (hostLower : Str) (cfg : IconConfig)
    (hosts : List (Str × YamlValue)) (r : IconResult)
    (h : matchHostGo hostLower cfg hosts = some r) : r.source = "host".toList := by
  induction hosts with
  | nil => simp [matchHostGo] at h
  | cons e rest ih =>
    obtain ⟨pat, v⟩ := e
    simp only [matchHostGo] at h
    split_ifs at h with h1 h2
    · simp only [Option.some.injEq] at h
      subst h; exact extractHostResult_source v cfg
    · simp only [Option.some.injEq] at h
      subst h; exact extractHostResult_source v cfg
    · exact ih h

theorem matchHost_source (host : Str) (hosts : List (Str × YamlValue))
    (cfg : IconConfig) (r : IconResult) (h : matchHost host hosts cfg = some r) :
    r.source = "host".toList :=
  matchHostGo_source (pyLower host) cfg hosts r h

theorem hostTier_source (config : ParsedConfig) (cmdline : Option Str)
    (r : IconResult) (h : hostTier config cmdline = some r) :
    r.source = "host".toList := by
  unfold hostTier at h
  rcases cmdline with _ | cl
  · simp at h
  · simp only at h
    rcases hcl : cl.isEmpty with _ | _ <;> simp [hcl] at h
    rcases hs : parseSshHost cl with _ | hstr <;> simp [hs] at h
    exact matchHost_source _ _ _ _ h.2

theorem patLoop_source (re : Str → Str → Option Bool) (title : Str)
    (iconColor : Option Str) (tp : List (Str × YamlValue)) (r : IconResult)
    (h : patLoop re title iconColor tp = some r) :
    r.source = "title_pattern".toList := by
  induction tp with
  | nil => simp [patLoop] at h
  | cons e rest ih =>
    obtain ⟨pat, icon⟩ := e
    simp only [patLoop] at h
    split_ifs at h with h1
    · exact ih h
    · rcases hre : re pat title with _ | b
      · simp only [hre] at h; exact ih h
      · cases b
        · simp only [hre] at h; exact ih h
        · simp only [hre, Option.some.injEq] at h
          subst h; rfl

theorem matchTitlePatternsGo_source (re : Str → Str → Option Bool) (title : Str)
    (cfg : IconConfig) (icons : List (Str × YamlValue)) (r : IconResult)
    (h : matchTitlePatternsGo re title cfg icons = some r) :
    r.source = "title_pattern".toList := by
  induction icons with
  | nil => simp [matchTitlePatternsGo] at h
  | cons e rest ih =>
    obtain ⟨k, v⟩ := e
    cases v with
    | str s =>
      simp only [matchTitlePatternsGo] at h
      exact ih h
    | map m =>
      rcases ht : dictGet m "title".toList with _ | tv
      · simp only [matchTitlePatternsGo, ht] at h
        exact ih h
      · cases tv with
        | str s =>
          simp only [matchTitlePatternsGo, ht] at h
          exact ih h
        | map tp =>
          simp only [matchTitlePatternsGo, ht] at h
          split_ifs at h with h1
          · exact ih h
          · rcases hp : patLoop re title (yamlGetStr? (dictGet m "icon-color".toList)) tp with _ | pr
            · simp only [hp] at h; exact ih h
            · simp only [hp, Option.some.injEq] at h
              subst h; exact patLoop_source _ _ _ _ _ hp

theorem matchTitlePatterns_source (re : Str → Str → Option Bool) (title : Str)
    (icons : List (Str × YamlValue)) (cfg : IconConfig) (r : IconResult)
    (h : matchTitlePatterns re title icons cfg = some r) :
    r.source = "title_pattern".toList := by
  unfold matchTitlePatterns at h
  split_ifs at h
  exact matchTitlePatternsGo_source _ _ _ _ _ h

theorem titleTokenLoop_source (ti : List (Str × Str)) (tokens : List Str)
    (r : IconResult) (h : titleTokenLoop ti tokens = some r) :
    r.source = "title_icon".toList := by
  induction tokens with
  | nil => simp [titleTokenLoop] at h
  | cons t rest ih =>
    rcases hg : dictGet ti t with _ | icon
    · simp only [titleTokenLoop, hg] at h
      exact ih h
    · simp only [titleTokenLoop, hg, Option.some.injEq] at h
      subst h; rfl

theorem titleSubstrLoop_source (titleLower : Str) (ti : List (Str × Str))
    (r : IconResult) (h : titleSubstrLoop titleLower ti = some r) :
    r.source = "title_icon".toList := by
  induction ti with
  | nil => simp [titleSubstrLoop] at h
  | cons e rest ih =>
    obtain ⟨kw, icon⟩ := e
    simp only [titleSubstrLoop] at h
    split_ifs at h with h1
    · simp only [Option.some.injEq] at h
      subst h; rfl
    · exact ih h

theorem matchTitleIcons_source (title : Str) (ti : List (Str × Str))
    (r : IconResult) (h : matchTitleIcons title ti = some r) :
    r.source = "title_icon".toList := by
  simp only [matchTitleIcons] at h
  split_ifs at h
  rcases ht : titleTokenLoop ti (splitRuns allowedTitleTokenChar (pyLower title)) with _ | tr
  · simp only [ht] at h
    exact titleSubstrLoop_source _ _ _ h
  · simp only [ht, Option.some.injEq] at h
    subst h; exact titleTokenLoop_source _ _ _ ht

theorem matchProcessGo_source (processLower : Str) (cfg : IconConfig)
    (icons : List (Str × YamlValue)) (r : IconResult)
    (h : matchProcessGo processLower cfg icons = some r) :
    r.source = "process".toList := by
  induction icons with
  | nil => simp [matchProcessGo] at h
  | cons e rest ih =>
    obtain ⟨k, v⟩ := e
    simp only [matchProcessGo] at h
    split_ifs at h with h1
    · exact ih h
    · cases v with
      | str s =>
        simp only [Option.some.injEq] at h
        subst h; rfl
      | map m =>
        simp only [Option.some.injEq] at h
        subst h; rfl

theorem matchProcess_source (process : Str) (icons : List (Str × YamlValue))
    (cfg : IconConfig) (r : IconResult) (h : matchProcess process icons cfg = some r) :
    r.source = "process".toList := by
  unfold matchProcess at h
  split_ifs at h
  exact matchProcessGo_source _ _ _ _ h

theorem sessionTokenLoop_source (sessions : List (Str × Str)) (tokens : List Str)
    (r : IconResult) (h : sessionTokenLoop sessions tokens = some r) :
    r.source = "session".toList := by
  induction tokens with
  | nil => simp [sessionTokenLoop] at h
  | cons t rest ih =>
    rcases hg : dictGet sessions t with _ | icon
    · rcases hi : sessionInnerScan t sessions with _ | icon2
      · simp only [sessionTokenLoop, hg, hi] at h
        exact ih h
      · simp only [sessionTokenLoop, hg, hi, Option.some.injEq] at h
        subst h; rfl
    · simp only [sessionTokenLoop, hg, Option.some.injEq] at h
      subst h; rfl

theorem matchSession_source (session : Str) (sessions : List (Str × Str))
    (r : IconResult) (h : matchSession session sessions = some r) :
    r.source = "session".toList := by
  unfold matchSession at h
  split_ifs at h
  exact sessionTokenLoop_source _ _ _ h

/-! ## Claim theorems -/

/-- C1: resolve is a total function returning exactly one result whose
source tag is that of the first tier, in the fixed order host,
title_pattern, title_icon, process, session, fallback, whose match
condition holds; and when no tier 1-5 matches, the result is the fallback
icon with source fallback and no color overrides. -/
theorem resolve_source_is_first_matching_tier (re : Str → Str → Option Bool)
    (config : ParsedConfig) (process title session : Str) (cmdline : Option Str) :
    ((resolveIcon re config process title session cmdline).source =
      (if (hostTier config cmdline).isSome then "host".toList
       else if (matchTitlePatterns re title config.icons config.config).isSome then
         "title_pattern".toList
       else if (matchTitleIcons title config.title_icons).isSome then
         "title_icon".toList
       else if (matchProcess process config.icons config.config).isSome then
         "process".toList
       else if (matchSession session config.sessions).isSome then
         "session".toList
       else "fallback".toList))
    ∧ (hostTier config cmdline = none →
       matchTitlePatterns re title config.icons config.config = none →
       matchTitleIcons title config.title_icons = none →
       matchProcess process config.icons config.config = none →
       matchSession session config.sessions = none →
       resolveIcon re config process title session cmdline =
         { icon := config.config.fallback_icon, ring_color := none,
           icon_color := none, alert_color := none,
           source := "fallback".toList }) := by
  constructor
  · unfold resolveIcon
    rcases h1 : hostTier config cmdline with _ | r1
    · rcases h2 : matchTitlePatterns re title config.icons config.config with _ | r2
      · rcases h3 : matchTitleIcons title config.title_icons with _ | r3
        · rcases h4 : matchProcess process config.icons config.config with _ | r4
          · rcases h5 : matchSession session config.sessions with _ | r5
            · simp [h1, h2, h3, h4, h5]
            · simpa [h1, h2, h3, h4, h5] using matchSession_source _ _ _ h5
          · simpa [h1, h2, h3, h4] using matchProcess_source _ _ _ _ h4
        · simpa [h1, h2, h3] using matchTitleIcons_source _ _ _ h3
      · simpa [h1, h2] using matchTitlePatterns_source _ _ _ _ _ h2
    · simpa [h1] using hostTier_source _ _ _ h1
  · intro h1 h2 h3 h4 h5
    unfold resolveIcon
    rw [h1, h2, h3, h4, h5]

/-- C1 witness: at an empty configuration and empty request context every
tier misses and the fallback result is produced. -/
theorem resolve_source_is_first_matching_tier_witness :
    resolveIcon (fun _ _ => some false)
      { config := defaultIconConfig, icons := [], title_icons := [],
        sessions := [], hosts := [] } [] [] [] none =
      { icon := defaultIconConfig.fallback_icon, ring_color := none,
        icon_color := none, alert_color := none, source := "fallback".toList } :=
  (resolve_source_is_first_matching_tier (fun _ _ => some false)
    { config := defaultIconConfig, icons := [], title_icons := [],
      sessions := [], hosts := [] } [] [] [] none).2 rfl rfl rfl rfl rfl

/-- C5: the host tier examines the hosts mapping in insertion order and
returns the first entry whose key matches exactly (case-insensitively) or
as a shell glob; the glob star-dot-local matches server.local but not
server.remote, and an earlier glob entry wins over a later exact entry. -/
theorem host_tier_first_match_in_order :
    (∀ host hosts cfg,
       matchHost host hosts cfg =
         (hosts.find? (fun e => hostKeyMatches host e.1)).map
           (fun e => extractHostResult e.2 cfg))
    ∧ globMatch "*.local".toList "server.local".toList = true
    ∧ globMatch "*.local".toList "server.remote".toList = false
    ∧ matchHost "server.local".toList
        [("*.local".toList, YamlValue.str "A".toList),
         ("server.local".toList, YamlValue.str "B".toList)] defaultIconConfig
        = some { icon := "A".toList, ring_color := none, icon_color := none,
                 alert_color := none, source := "host".toList } := by
  refine ⟨?_, by decide, by decide, by rfl⟩
  intro host hosts cfg
  unfold matchHost
  induction hosts with
  | nil => rfl
  | cons e rest ih =>
    obtain ⟨pat, v⟩ := e
    by_cases h1 : (pyLower pat == pyLower host) = true
    · simp [matchHostGo, List.find?, hostKeyMatches, h1]
    · by_cases h2 : globMatch (pyLower pat) (pyLower host) = true
      · simp [matchHostGo, List.find?, hostKeyMatches, h1, h2]
      · simp [matchHostGo, List.find?, hostKeyMatches, h1, h2, ih]

/-- C6: commands whose basename is not ssh, slogin, mosh or mosh-client
yield no host; option scanning skips a recognized value-taking flag with
its value, any other dash token alone, and treats the token after a
double dash as positional; and the three concrete extractions of the
specification hold. -/
theorem extract_host_recognition :
    (∀ cmdline prog args, pySplitWs cmdline = prog :: args →
       sshCommands.contains (basename prog) = false →
       parseSshHost cmdline = none)
    ∧ (∀ args, takeFirstNonOption ("--".toList :: args) = args.head?)
    ∧ (∀ opt x args, sshOptionsWithArg.contains opt = true →
       takeFirstNonOption (opt :: x :: args) = takeFirstNonOption args)
    ∧ (∀ a args, pyStartsWith a ['-'] = true → a ≠ "--".toList →
       sshOptionsWithArg.contains a = false →
       takeFirstNonOption (a :: args) = takeFirstNonOption args)
    ∧ (∀ a args, pyStartsWith a ['-'] = false →
       takeFirstNonOption (a :: args) = some a)
    ∧ parseSshHost "ssh -i ~/.ssh/key -p 2222 server.local".toList
        = some "server.local".toList
    ∧ parseSshHost "vim file.txt".toList = none
    ∧ parseSshHost "mosh user@10.0.0.1".toList = some "10.0.0.1".toList := by
  refine ⟨?_, ?_, ?_, ?_, ?_, by decide, by decide, by decide⟩
  · intro cmdline prog args hsplit hcmd
    unfold parseSshHost
    rw [hsplit]
    simp only [hcmd]
    simp
  · intro args
    rw [takeFirstNonOption.eq_def]
    simp
  · intro opt x args hmem
    have hopt : opt ∈ sshOptionsWithArg := by simpa using hmem
    have hprops : ((opt != "--".toList) && pyStartsWith opt ['-']) = true := by
      have hall : sshOptionsWithArg.all
          (fun o => (o != "--".toList) && pyStartsWith o ['-']) = true := by decide
      exact List.all_eq_true.mp hall opt hopt
    simp only [Bool.and_eq_true, bne_iff_ne] at hprops
    have h1 : (opt == "--".toList) = false := by
      simpa using hprops.1
    rw [takeFirstNonOption.eq_def]
    simp only [h1, hprops.2, hmem]
    simp
  · intro a args hdash hne hmem
    have h1 : (a == "--".toList) = false := by simpa using hne
    rw [takeFirstNonOption.eq_def]
    simp only [h1, hdash, hmem]
    simp
  · intro a args hdash
    have h1 : (a == "--".toList) = false := by
      rcases hb : a == "--".toList with _ | _
      · rfl
      · exfalso
        have hab : a = "--".toList := by simpa using hb
        subst hab
        simp [pyStartsWith] at hdash
    rw [takeFirstNonOption.eq_def]
    simp only [h1, hdash]
    simp

/-- C6 witness: the universal no-recognized-command conjunct applied to the
concrete command line vim file.txt. -/
theorem extract_host_recognition_witness :
    parseSshHost "vim file.txt".toList = none :=
  extract_host_recognition.1 "vim file.txt".toList
    "vim".toList ["file.txt".toList] (by decide) (by decide)

/-- C7: hostname normalization strips an optional user prefix at the first
at-sign, extracts a bracketed IPv6 address, otherwise drops a trailing
colon-port, and lowercases: the three concrete round-trips of the
specification, and the user prefix (any at-sign-free text before the first
at-sign) never influences the result. -/
theorem normalize_hostname_spec :
    normalizeHostname "user@[2001:db8::1]:22".toList = "2001:db8::1".toList
    ∧ normalizeHostname "Example.COM".toList = "example.com".toList
    ∧ normalizeHostname "host:22".toList = "host".toList
    ∧ (∀ u rest, u.contains '@' = false →
       normalizeHostname (u ++ '@' :: rest) = normalizeHostname ('@' :: rest)) := by
  refine ⟨by decide, by decide, by decide, ?_⟩
  intro u rest h
  have hmem : ('@' : Char) ∉ u := by
    intro hm
    rw [show (u.contains '@') = true by simpa using hm] at h
    exact Bool.true_eq_false.mp h
  have hsplit : splitAtFirst (u ++ '@' :: rest) '@' = (u, rest) := by
    clear h
    induction u with
    | nil => simp [splitAtFirst]
    | cons a t ih =>
      have ha : (a == '@') = false := by
        simp only [beq_eq_false_iff_ne]
        intro e
        exact hmem (e ▸ List.mem_cons_self a t)
      have ht : ('@' : Char) ∉ t := fun hm => hmem (List.mem_cons_of_mem a hm)
      simp [splitAtFirst, ha, ih ht]
  have hcont : (u ++ '@' :: rest).contains '@' = true := by
    simp
  simp only [normalizeHostname, hsplit, hcont]
  simp [splitAtFirst]

/-- C7 witness: the user-prefix conjunct at a concrete user and host. -/
theorem normalize_hostname_spec_witness :
    normalizeHostname ("user".toList ++ '@' :: "x".toList) =
      normalizeHostname ('@' :: "x".toList) :=
  normalize_hostname_spec.2.2.2 "user".toList "x".toList (by decide)

set_option maxRecDepth 100000 in
/-- C2 (against the code): parsing a configuration whose title sub-block
holds a 501-character regex pattern does not fail; the over-long pattern
is stored in the parsed icons mapping unchanged.  The validation helper
that would reject it (and that the claim describes) exists but is never
invoked by load_config_from_string. -/
theorem parse_accepts_overlong_pattern :
    (loadConfigFromString longPatternConfigText).icons
      = [("app".toList,
          YamlValue.map [("title".toList,
            YamlValue.map [(longTitlePattern, YamlValue.str "X".toList)])])]
    ∧ longTitlePattern.length = 501
    ∧ validatePatternLength longTitlePattern 3 = Except.error 3 := by
  refine ⟨by rfl, by simp [longTitlePattern], ?_⟩
  simp only [validatePatternLength, MAX_REGEX_LENGTH, longTitlePattern,
    List.length_replicate]
  norm_num

/-- C3: with the file system abstracted as the stat result and the file
content, a file of exactly 1,048,576 bytes loads to the full parse of its
content, any strictly larger size fails with TooLarge before any parsing,
and a failing stat fails with NotFound. -/
theorem load_config_size_ceiling (content : Str) :
    loadConfig none content = Except.error LoadError.notFound
    ∧ loadConfig (some 1048576) content
        = Except.ok (loadConfigFromString content)
    ∧ (∀ n, 1048576 < n →
        loadConfig (some n) content = Except.error LoadError.tooLarge) := by
  refine ⟨rfl, ?_, ?_⟩
  · simp [loadConfig, MAX_CONFIG_SIZE]
  · intro n hn
    simp only [loadConfig, MAX_CONFIG_SIZE]
    rw [if_pos]
    omega

/-- C3 witness: the ceiling at the concrete sizes 1,048,576 and 1,048,577
on the empty content. -/
theorem load_config_size_ceiling_witness :
    loadConfig (some 1048577) [] = Except.error LoadError.tooLarge
    ∧ loadConfig (some 1048576) [] = Except.ok (loadConfigFromString []) :=
  ⟨(load_config_size_ceiling []).2.2 1048577 (by norm_num),
   (load_config_size_ceiling []).2.1⟩

/-- C8: parsing is deterministic; equal configuration texts parse to
structurally equal configurations (the mappings are association lists, so
the equality covers key order). -/
theorem parse_deterministic (c1 c2 : Str) (h : c1 = c2) :
    loadConfigFromString c1 = loadConfigFromString c2 := by
  rw [h]

/-- C8 witness: at a concrete configuration text. -/
theorem parse_deterministic_witness :
    loadConfigFromString "config:\n  show_name: true".toList
      = loadConfigFromString "config:\n  show_name: true".toList :=
  parse_deterministic "config:\n  show_name: true".toList
    "config:\n  show_name: true".toList rfl

/-- C9: a config-section entry whose inline value strips to the empty
string leaves every string-valued setting at its previous value, while the
boolean settings are still assigned (parse_bool of the empty string is
false, so an empty prefer_host_icon overrides its default of true with
false); end to end, a config block with empty prefer_host_icon and
fallback_icon yields the defaults except prefer_host_icon = false. -/
theorem empty_config_value_handling :
    (∀ cfg key,
       (applyConfigEntry cfg key (some [])).fallback_icon = cfg.fallback_icon
       ∧ (applyConfigEntry cfg key (some [])).ring_color_active = cfg.ring_color_active
       ∧ (applyConfigEntry cfg key (some [])).ring_color_inactive = cfg.ring_color_inactive
       ∧ (applyConfigEntry cfg key (some [])).icon_color = cfg.icon_color
       ∧ (applyConfigEntry cfg key (some [])).alert_color = cfg.alert_color
       ∧ (applyConfigEntry cfg key (some [])).multi_pane_icon = cfg.multi_pane_icon)
    ∧ (∀ cfg key,
       (pyLower key).map (fun c => if c == '-' then '_' else c)
         = "prefer_host_icon".toList →
       (applyConfigEntry cfg key (some [])).prefer_host_icon = false)
    ∧ (∀ cfg key,
       (pyLower key).map (fun c => if c == '-' then '_' else c)
         = "show_name".toList →
       (applyConfigEntry cfg key (some [])).show_name = false)
    ∧ parseConfigSection
        (splitlines "config:\n  prefer_host_icon: ''\n  fallback_icon: ''".toList)
        = { defaultIconConfig with prefer_host_icon := false } := by
  refine ⟨?_, ?_, ?_, by rfl⟩
  · intro cfg key
    simp only [applyConfigEntry, List.isEmpty_nil, Bool.not_true, Bool.and_false,
      Bool.false_eq_true, if_false]
    split_ifs <;> simp
  · intro cfg key hk
    simp only [applyConfigEntry, hk, List.isEmpty_nil, Bool.not_true, Bool.and_false,
      Bool.false_eq_true, if_false]
    split_ifs with h1 h2 h3 <;> first
      | rfl
      | (exfalso; revert h1; decide)
      | (exfalso; revert h2; decide)
      | (exfalso; revert h3; decide)
  · intro cfg key hk
    simp only [applyConfigEntry, hk, List.isEmpty_nil, Bool.not_true, Bool.and_false,
      Bool.false_eq_true, if_false]
    split_ifs with h1 <;> first
      | rfl
      | (exfalso; revert h1; decide)

/-- C9 witness: the empty-value boolean conjunct at the concrete key
prefer-host-icon (hyphen spelling, normalized by the parser). -/
theorem empty_config_value_handling_witness :
    (applyConfigEntry defaultIconConfig "prefer-host-icon".toList
      (some [])).prefer_host_icon = false :=
  empty_config_value_handling.2.1 defaultIconConfig "prefer-host-icon".toList
    (by decide)

/-- C10: a detailed hosts or icons entry that matches but has no icon key
resolves to the global fallback icon while keeping source host or process
(not fallback), and its per-entry color overrides are still applied. -/
theorem detailed_entry_without_icon_key :
    (∀ m cfg, dictGet m "icon".toList = none →
       extractHostResult (YamlValue.map m) cfg =
         { icon := cfg.fallback_icon
           ring_color := pyOrOpt (yamlGetStr? (dictGet m "ring-color".toList))
             (yamlGetStr? (dictGet m "index-color".toList))
           icon_color := yamlGetStr? (dictGet m "icon-color".toList)
           alert_color := yamlGetStr? (dictGet m "alert-color".toList)
           source := "host".toList })
    ∧ (∀ p key m cfg, pyLower key = pyLower p → p.isEmpty = false →
       dictGet m "icon".toList = none →
       matchProcess p [(key, YamlValue.map m)] cfg =
         some { icon := cfg.fallback_icon, ring_color := none,
                icon_color := yamlGetStr? (dictGet m "icon-color".toList),
                alert_color := none, source := "process".toList }) := by
  constructor
  · intro m cfg h
    simp only [extractHostResult, yamlIconOrDefault, h]
  · intro p key m cfg hkey hp h
    simp only [matchProcess, hp, Bool.false_eq_true, if_false]
    simp only [matchProcessGo, hkey, bne_self_eq_false, Bool.false_eq_true, if_false]
    simp only [yamlIconOrDefault, h]

/-- C10 witness: a host entry and a process entry carrying only color
overrides, no icon key. -/
theorem detailed_entry_without_icon_key_witness :
    extractHostResult
        (YamlValue.map [("ring-color".toList, YamlValue.str "#123456".toList)])
        defaultIconConfig
      = { icon := defaultIconConfig.fallback_icon,
          ring_color := some "#123456".toList, icon_color := none,
          alert_color := none, source := "host".toList }
    ∧ matchProcess "APP".toList
        [("app".toList,
          YamlValue.map [("icon-color".toList, YamlValue.str "#abcdef".toList)])]
        defaultIconConfig
      = some { icon := defaultIconConfig.fallback_icon, ring_color := none,
               icon_color := some "#abcdef".toList, alert_color := none,
               source := "process".toList } := by
  constructor
  · have h := detailed_entry_without_icon_key.1
      [("ring-color".toList, YamlValue.str "#123456".toList)]
      defaultIconConfig (by rfl)
    rw [h]
    rfl
  · have h := detailed_entry_without_icon_key.2 "APP".toList "app".toList
      [("icon-color".toList, YamlValue.str "#abcdef".toList)]
      defaultIconConfig (by decide) (by decide) (by rfl)
    rw [h]
    rfl

/-- C4 counterexample (the claim as stated is false): with a warm cache
(cached configuration present, same path, cached modification time 5) and
a failing stat, get_config returns the cached configuration unchanged and
does not re-parse, although the claim requires a failing stat to discard
the cache. -/
theorem get_config_stat_failure_counterexample :
    getConfig { cache := some cfgSampleA, mtime := 5, pathCache := "p".toList }
        "p".toList none cfgSampleB
      = (cfgSampleA,
         { cache := some cfgSampleA, mtime := 5, pathCache := "p".toList })
    ∧ cfgSampleA ≠ cfgSampleB := by
  constructor
  · simp [getConfig]
  · intro h
    have hb := congrArg (fun c => c.config.show_name) h
    simp [cfgSampleA, cfgSampleB, defaultIconConfig] at hb

/-- C4 (amended): the cached configuration is discarded and the load result
returned exactly when the cache is empty, the path differs, or the
observed modification time (taken as 0.0 when the stat fails) has advanced
strictly past the cached one; otherwise the cached configuration is
returned and the state is unchanged.  A failing stat alone does not
invalidate a warm cache. -/
theorem get_config_cache_invalidation (st : ConfigCache) (path : Str)
    (statMtime : Option ℚ) (loaded : ParsedConfig) :
    (cacheInvalid st path statMtime = true →
       getConfig st path statMtime loaded =
         (loaded, { cache := some loaded, mtime := statMtime.getD 0,
                    pathCache := path }))
    ∧ (cacheInvalid st path statMtime = false →
       ∃ c, st.cache = some c ∧ getConfig st path statMtime loaded = (c, st)) := by
  rcases hc : st.cache with _ | c
  · refine ⟨fun _ => ?_, fun hinv => ?_⟩
    · simp [getConfig, hc]
    · simp [cacheInvalid, hc] at hinv
  · constructor
    · intro hinv
      simp only [cacheInvalid, hc, Option.isNone_some, Bool.false_or] at hinv
      simp only [getConfig, hc]
      rw [if_pos]
      simpa using hinv
    · intro hinv
      simp only [cacheInvalid, hc, Option.isNone_some, Bool.false_or,
        Bool.or_eq_false_iff] at hinv
      refine ⟨c, rfl, ?_⟩
      simp only [getConfig, hc]
      rw [if_neg]
      simp only [Bool.or_eq_true, not_or]
      constructor
      · simpa using hinv.1
      · simpa using hinv.2

/-- C4 witness for the amended claim: an empty cache is invalid and the
fresh load is returned and cached. -/
theorem get_config_cache_invalidation_witness :
    getConfig { cache := none, mtime := 0, pathCache := [] } [] none cfgSampleA
      = (cfgSampleA, { cache := some cfgSampleA, mtime := 0, pathCache := [] }) :=
  (get_config_cache_invalidation { cache := none, mtime := 0, pathCache := [] }
    [] none cfgSampleA).1 rfl

end NerdIcons
